import Mathlib

/-!
Verification development for the time-tide-agenda weekly calendar.

The source is a React page (`src/pages/Index.tsx` and the navigation-enabled
variant `src/unnamed/part_000`).  The scheduling core is embedded below:

* `timeToMinutes`, `minutesToTime`  — the `HH:mm` string conversions,
* `timesOverlap`                    — the half-open interval overlap predicate,
* `validateEvent` / `onAddEvent`    — the four validation checks and insertion,
* `filteredEvents` / `eventsByDay`  — department/week filtering and day buckets,
* `hasConflictFlag`, `topOffset`, `heightPx` — the layout computations,
* `CalDate` with `addDays`/`addMonths`/`addYears`, `startOfWeek`, and the
  `navWeek/Month/Year` handlers — the date-fns arithmetic the page calls.

JavaScript number semantics are modelled with `Option Nat`: `none` stands for
`NaN` (a comparison against `NaN` is false, arithmetic on `NaN` gives `NaN`).
-/

/-- One decimal digit character: `digitChar d` is the character for `d % 10`
(code point `48 + d % 10`). -/
def digitChar (d : Nat) : Char :=
  ⟨⟨BitVec.ofNat 32 (48 + d % 10)⟩, by
    constructor
    have : d % 10 < 10 := Nat.mod_lt _ (by omega)
    simp [UInt32.toNat, BitVec.toNat_ofNat]
    omega⟩

/-- Decimal digit test on a character (code point between 48 and 57). -/
def isDigitChar (c : Char) : Bool :=
  48 ≤ c.toNat && c.toNat ≤ 57

/-- Value accumulated by reading decimal digit characters left to right; this
is the value `Number` produces on a plain digit string. -/
def digitsVal (cs : List Char) : Nat :=
  cs.foldl (fun a c => 10 * a + (c.toNat - 48)) 0

/-- Fuel-driven worker for `natToDigits`; `fuel ≥ n` guarantees enough steps. -/
def ntdAux : Nat → Nat → List Char
  | 0, n => [digitChar n]
  | fuel + 1, n =>
    if n < 10 then [digitChar n]
    else ntdAux fuel (n / 10) ++ [digitChar (n % 10)]

/-- Decimal digit list of a natural number, most significant digit first;
models JavaScript `Number.prototype.toString` on a nonnegative integer. -/
def natToDigits (n : Nat) : List Char :=
  ntdAux n n

/-- Model of `.toString().padStart(2, "0")` from `minutesToTime`. -/
def pad2 (n : Nat) : List Char :=
  let ds := natToDigits n
  if ds.length < 2 then '0' :: ds else ds

/-- Restricted model of JavaScript `Number(string)` used by `timeToMinutes`:
the empty string converts to `0`, a plain decimal digit string converts to its
value, and everything else is mapped to `NaN` (`none`).  The program only ever
feeds digit fields and empty/missing fields to `Number`, and every concrete
input appearing in a theorem below is of this restricted shape. -/
def jsNumber (cs : List Char) : Option Nat :=
  if cs.isEmpty then some 0
  else if cs.all isDigitChar then some (digitsVal cs)
  else none

/-- Model of JavaScript `s.split(":")` on the character list of `s`. -/
def splitOnColon : List Char → List (List Char)
  | [] => [[]]
  | c :: cs =>
    if c = ':' then [] :: splitOnColon cs
    else
      match splitOnColon cs with
      | [] => [[c]]
      | g :: gs => (c :: g) :: gs

/-- Embeds `timeToMinutes` (Index.tsx lines 49-52):
`const [h, m] = timeStr.split(":").map(Number); return h * 60 + m;`.
A missing or non-numeric field makes the result `NaN`, modelled as `none`. -/
def timeToMinutes (timeStr : String) : Option Nat :=
  match splitOnColon timeStr.data with
  | f1 :: f2 :: _ =>
    match jsNumber f1, jsNumber f2 with
    | some h, some m => some (h * 60 + m)
    | _, _ => none
  | _ => none

/-- Embeds `minutesToTime` (Index.tsx lines 54-58): hours are
`Math.floor(minutes / 60)`, minutes are `minutes % 60`, both zero-padded to
two characters and joined with a colon. -/
def minutesToTime (minutes : Nat) : String :=
  ⟨pad2 (minutes / 60) ++ ':' :: pad2 (minutes % 60)⟩

/-- JavaScript `<=` on possibly-NaN numbers: false whenever a side is NaN. -/
def jsLe : Option Nat → Option Nat → Bool
  | some a, some b => decide (a ≤ b)
  | _, _ => false

/-- JavaScript `<` on possibly-NaN numbers: false whenever a side is NaN. -/
def jsLt : Option Nat → Option Nat → Bool
  | some a, some b => decide (a < b)
  | _, _ => false

/-- JavaScript `>=` on possibly-NaN numbers: false whenever a side is NaN. -/
def jsGe : Option Nat → Option Nat → Bool
  | some a, some b => decide (b ≤ a)
  | _, _ => false

/-- JavaScript `>` on possibly-NaN numbers: false whenever a side is NaN. -/
def jsGt : Option Nat → Option Nat → Bool
  | some a, some b => decide (b < a)
  | _, _ => false

/-- Embeds `timesOverlap` (Index.tsx lines 60-62):
`!(timeToMinutes(e1) <= timeToMinutes(s2) || timeToMinutes(s1) >= timeToMinutes(e2))`. -/
def timesOverlap (s1 e1 s2 e2 : String) : Bool :=
  !(jsLe (timeToMinutes e1) (timeToMinutes s2) ||
    jsGe (timeToMinutes s1) (timeToMinutes e2))

/-- Whitespace test for `jsTrim` (space, tab, newline, carriage return). -/
def isWSChar (c : Char) : Bool :=
  c = ' ' || c = '\t' || c = '\n' || c = '\r'

/-- Model of JavaScript `String.prototype.trim`: strips leading and trailing
whitespace. -/
def jsTrim (s : String) : String :=
  ⟨((s.data.dropWhile isWSChar).reverse.dropWhile isWSChar).reverse⟩

/-- Embeds `TIME_STEP = 15` (Index.tsx line 45). -/
def TIME_STEP : Nat := 15

/-- Embeds `DAY_START = 8 * 60` (Index.tsx line 46). -/
def DAY_START : Nat := 8 * 60

/-- Embeds `DAY_END = 20 * 60` (Index.tsx line 47). -/
def DAY_END : Nat := 20 * 60

/-- Day window configuration (start/end minute offsets and step); the source
inlines the fixed constants `DAY_START`, `DAY_END`, `TIME_STEP`, gathered here
into `dayWindow` below. -/
structure Window where
  startMin : Nat
  endMin : Nat
  step : Nat
deriving DecidableEq, Repr

/-- The fixed day window of the source: 08:00-20:00 with a 15-minute step. -/
def dayWindow : Window := ⟨DAY_START, DAY_END, TIME_STEP⟩

/-- The four rejection reasons of the validator, one per early `return` in
`onAddEvent` (Index.tsx lines 135-153). -/
inductive RejectionReason
  | EmptyTitle
  | EndBeforeStart
  | OutsideWindow
  | BadGranularity
deriving DecidableEq, Repr

/-- Accepted event draft: trimmed title plus the submitted time strings. -/
structure EventDraft where
  title : String
  startTime : String
  endTime : String
deriving DecidableEq, Repr

/-- Granularity check of `onAddEvent` line 150: `(eMin - sMin) % TIME_STEP !== 0`.
JavaScript `%` is the truncated remainder (`Int.tmod`), and any `NaN` operand
makes `NaN % step !== 0` evaluate to true. -/
def granViolation (eMin sMin : Option Nat) (step : Nat) : Bool :=
  match eMin, sMin with
  | some e, some s => decide (Int.tmod ((e : Int) - s) step ≠ 0)
  | _, _ => true

/-- Embeds the validation prefix of `onAddEvent` (Index.tsx lines 135-153):
four checks in order — empty trimmed title, end not after start, outside the
day window, duration not a multiple of the step — each returning early with
its rejection reason; on success the trimmed title and time strings survive. -/
def validateEvent (title startTime endTime : String) (w : Window) :
    Except RejectionReason EventDraft :=
  if jsTrim title = "" then .error .EmptyTitle
  else if jsLe (timeToMinutes endTime) (timeToMinutes startTime) then
    .error .EndBeforeStart
  else if jsLt (timeToMinutes startTime) (some w.startMin) ||
      jsGt (timeToMinutes endTime) (some w.endMin) then
    .error .OutsideWindow
  else if granViolation (timeToMinutes endTime) (timeToMinutes startTime) w.step then
    .error .BadGranularity
  else .ok ⟨jsTrim title, startTime, endTime⟩

/-- Event category enumeration (Index.tsx line 23). -/
inductive Category
  | Work
  | Personal
  | Health
  | Other
deriving DecidableEq, Repr

/-- Department enumeration (Index.tsx line 24). -/
inductive Department
  | HR
  | Engineering
  | Marketing
  | Sales
deriving DecidableEq, Repr

/-- Proleptic Gregorian calendar date, the model of the JavaScript `Date`
values the page manipulates (day granularity only; the code never uses a
time-of-day component of an event date). -/
structure CalDate where
  year : Int
  month : Nat
  day : Nat
deriving DecidableEq, Repr

/-- Gregorian leap-year rule. -/
def isLeap (y : Int) : Bool :=
  y % 4 == 0 && (y % 100 != 0 || y % 400 == 0)

/-- Number of days in a month (month numbered 1-12). -/
def daysInMonth (y : Int) (m : Nat) : Nat :=
  if m = 2 then (if isLeap y then 29 else 28)
  else if m = 4 ∨ m = 6 ∨ m = 9 ∨ m = 11 then 30
  else 31

/-- Well-formedness of a calendar date. -/
def isValidDate (d : CalDate) : Bool :=
  1 ≤ d.month && d.month ≤ 12 && 1 ≤ d.day && d.day ≤ daysInMonth d.year d.month

/-- Calendar successor of a date. -/
def nextDay (d : CalDate) : CalDate :=
  if d.day < daysInMonth d.year d.month then ⟨d.year, d.month, d.day + 1⟩
  else if d.month < 12 then ⟨d.year, d.month + 1, 1⟩
  else ⟨d.year + 1, 1, 1⟩

/-- Calendar predecessor of a date. -/
def prevDay (d : CalDate) : CalDate :=
  if 1 < d.day then ⟨d.year, d.month, d.day - 1⟩
  else if 1 < d.month then ⟨d.year, d.month - 1, daysInMonth d.year (d.month - 1)⟩
  else ⟨d.year - 1, 12, 31⟩

/-- Model of date-fns `addDays(d, n)` for a nonnegative count (the page only
adds 0 to 7 days). -/
def addDays (d : CalDate) (n : Nat) : CalDate :=
  nextDay^[n] d

/-- Model of date-fns `subDays(d, n)` for a nonnegative count. -/
def subDays (d : CalDate) (n : Nat) : CalDate :=
  prevDay^[n] d

/-- Model of date-fns `addMonths(d, n)`: advance the month index by `n` with
floor normalization into year/month, clamping the day of month to the last
valid day of the target month (spec 4.5 pins exactly this clamping rule). -/
def addMonths (d : CalDate) (n : Int) : CalDate :=
  let t : Int := 12 * d.year + ((d.month : Int) - 1) + n
  let y : Int := t / 12
  let m : Nat := (t % 12).toNat + 1
  ⟨y, m, min d.day (daysInMonth y m)⟩

/-- Model of date-fns `subMonths(d, n)`. -/
def subMonths (d : CalDate) (n : Int) : CalDate :=
  addMonths d (-n)

/-- Model of date-fns `addYears(d, n)` (month arithmetic by `12 * n`, with the
same end-of-month clamping, which only bites on February 29). -/
def addYears (d : CalDate) (n : Int) : CalDate :=
  addMonths d (12 * n)

/-- Model of date-fns `subYears(d, n)`. -/
def subYears (d : CalDate) (n : Int) : CalDate :=
  addYears d (-n)

/-- Serial day number of a date (days since 1970-01-01, Hinnant's civil
calendar algorithm); used only to compute weekdays. -/
def dayNumber (d : CalDate) : Int :=
  let y : Int := if d.month ≤ 2 then d.year - 1 else d.year
  let era : Int := y / 400
  let yoe : Int := y - era * 400
  let mp : Int := ((d.month : Int) + 9) % 12
  let doy : Int := (153 * mp + 2) / 5 + (d.day : Int) - 1
  let doe : Int := yoe * 365 + yoe / 4 - yoe / 100 + doy
  era * 146097 + doe - 719468

/-- Weekday of a date, 0 = Sunday … 6 = Saturday (1970-01-01 is a Thursday). -/
def dayOfWeek (d : CalDate) : Nat :=
  ((dayNumber d + 4) % 7).toNat

/-- Model of date-fns `startOfWeek(d, { weekStartsOn: 0 })` (Index.tsx line 90,
part_000 line 83): step back to the most recent Sunday. -/
def startOfWeek (d : CalDate) : CalDate :=
  subDays d (dayOfWeek d)

/-- Embeds `daysOfWeek` (part_000 lines 95-101): the seven days obtained by
`addDays(currentWeekStart, i)` for `i = 0 … 6`, in order. -/
def daysOfWeek (weekStart : CalDate) : List CalDate :=
  (List.range 7).map (fun i => addDays weekStart i)

/-- Embeds `navWeekForward` (part_000 line 273): `addWeeks(currentWeekStart, 1)`. -/
def navWeekForward (a : CalDate) : CalDate :=
  addDays a 7

/-- Embeds `navWeekBackward` (part_000 line 272): `subWeeks(currentWeekStart, 1)`. -/
def navWeekBackward (a : CalDate) : CalDate :=
  subDays a 7

/-- Embeds `navMonthForward` (part_000 line 275). -/
def navMonthForward (a : CalDate) : CalDate :=
  addMonths a 1

/-- Embeds `navMonthBackward` (part_000 line 274). -/
def navMonthBackward (a : CalDate) : CalDate :=
  subMonths a 1

/-- Embeds `navYearForward` (part_000 line 277). -/
def navYearForward (a : CalDate) : CalDate :=
  addYears a 1

/-- Embeds `navYearBackward` (part_000 line 276). -/
def navYearBackward (a : CalDate) : CalDate :=
  subYears a 1

/-- Embeds the `AgendaEvent` interface (Index.tsx lines 26-34). -/
structure AgendaEvent where
  id : Nat
  title : String
  startTime : String
  endTime : String
  category : Category
  department : Department
  date : CalDate
deriving DecidableEq, Repr

/-- Department filter: `none` models the `"all"` option. -/
def matchesFilter (filt : Option Department) (e : AgendaEvent) : Bool :=
  match filt with
  | none => true
  | some dep => decide (e.department = dep)

/-- Embeds `filteredEvents` (Index.tsx lines 100-108): keep events whose
department passes the filter and whose date is one of the visible days
(`isSameDay` on day-granularity dates is date equality). -/
def filteredEvents (events : List AgendaEvent) (filt : Option Department)
    (days : List CalDate) : List AgendaEvent :=
  events.filter (fun e => matchesFilter filt e && days.any (fun d => decide (d = e.date)))

/-- Embeds `eventsByDay` (Index.tsx lines 111-124): the bucket for day `d` of
the keyed map, i.e. the filtered events whose `yyyy-MM-dd` key equals the key
of `d` (key equality coincides with date equality), in insertion order. -/
def eventsByDay (events : List AgendaEvent) (filt : Option Department)
    (days : List CalDate) (d : CalDate) : List AgendaEvent :=
  (filteredEvents events filt days).filter (fun e => decide (e.date = d))

/-- Embeds `hasOverlap` (Index.tsx lines 127-132): some existing event on the
form's date overlaps the form's time range. -/
def hasOverlap (events : List AgendaEvent) (date : CalDate)
    (startTime endTime : String) : Bool :=
  events.any (fun e =>
    if decide (e.date ≠ date) then false
    else timesOverlap e.startTime e.endTime startTime endTime)

/-- Embeds the effect of `onAddEvent` (Index.tsx lines 135-175) on the event
collection: on a validation failure the collection is unchanged and the
rejection reason is reported (as a toast); on success the new event — with
trimmed title, the submitted times, and a caller-assigned id — is appended. -/
def onAddEvent (events : List AgendaEvent) (title startTime endTime : String)
    (cat : Category) (dep : Department) (date : CalDate) (newId : Nat) :
    List AgendaEvent × Option RejectionReason :=
  match validateEvent title startTime endTime dayWindow with
  | .error r => (events, some r)
  | .ok d => (events ++ [⟨newId, d.title, d.startTime, d.endTime, cat, dep, date⟩], none)

/-- Embeds `EVENT_SLOT_HEIGHT` (Index.tsx line 191). -/
def EVENT_SLOT_HEIGHT : ℚ := 48

/-- Embeds the `timeSlots` loop (Index.tsx lines 81-87): slot start times from
`DAY_START` (inclusive) to `DAY_END` (exclusive) stepping by `TIME_STEP`. -/
def timeSlots : List String :=
  (List.range ((DAY_END - DAY_START) / TIME_STEP)).map
    (fun i => minutesToTime (DAY_START + TIME_STEP * i))

/-- Embeds the `top` computation of `eventColumns` (Index.tsx line 208):
`((startMinutes - DAY_START) / TIME_STEP) * EVENT_SLOT_HEIGHT`, as an exact
rational; `none` models `NaN` from an unparseable time. -/
def topOffset (e : AgendaEvent) : Option ℚ :=
  (timeToMinutes e.startTime).map
    (fun s => ((s : ℚ) - (DAY_START : ℚ)) / (TIME_STEP : ℚ) * EVENT_SLOT_HEIGHT)

/-- Embeds the `height` computation of `eventColumns` (Index.tsx line 209):
`((endMinutes - startMinutes) / TIME_STEP) * EVENT_SLOT_HEIGHT`. -/
def heightPx (e : AgendaEvent) : Option ℚ :=
  match timeToMinutes e.startTime, timeToMinutes e.endTime with
  | some s, some en => some (((en : ℚ) - (s : ℚ)) / (TIME_STEP : ℚ) * EVENT_SLOT_HEIGHT)
  | _, _ => none

/-- Embeds the `overlap` flag of `eventColumns` (Index.tsx lines 213-216):
some other event of the same day bucket (different id) overlaps this one. -/
def hasConflictFlag (bucket : List AgendaEvent) (ev : AgendaEvent) : Bool :=
  bucket.any (fun other =>
    decide (other.id ≠ ev.id) &&
    timesOverlap ev.startTime ev.endTime other.startTime other.endTime)

/-- Well-formed zero-padded `HH:mm` string: exactly five characters
`h h : m m`, all digit positions decimal digits, hours below 24, minutes
below 60 (the wire format of spec section 6). -/
def isValidHHMM (s : String) : Bool :=
  match s.data with
  | [c1, c2, sep, c3, c4] =>
    decide (sep = ':') && isDigitChar c1 && isDigitChar c2 &&
    isDigitChar c3 && isDigitChar c4 &&
    decide (10 * (c1.toNat - 48) + (c2.toNat - 48) < 24) &&
    decide (10 * (c3.toNat - 48) + (c4.toNat - 48) < 60)
  | _ => false

theorem digitChar_toNat (d : Nat) : (digitChar d).toNat = 48 + d % 10 := by
  have : d % 10 < 10 := Nat.mod_lt _ (by omega)
  simp [digitChar, Char.toNat, UInt32.toNat, BitVec.toNat_ofNat]
  omega

theorem isDigitChar_digitChar (d : Nat) : isDigitChar (digitChar d) = true := by
  have : d % 10 < 10 := Nat.mod_lt _ (by omega)
  simp [isDigitChar, digitChar_toNat]
  omega

theorem colon_toNat : ':'.toNat = 58 := by decide

theorem digitChar_ne_colon (d : Nat) : digitChar d ≠ ':' := by
  intro h
  have h2 := congrArg Char.toNat h
  rw [digitChar_toNat, colon_toNat] at h2
  have : d % 10 < 10 := Nat.mod_lt _ (by omega)
  omega

theorem isDigitChar_bounds {c : Char} (h : isDigitChar c = true) :
    48 ≤ c.toNat ∧ c.toNat ≤ 57 := by
  simpa [isDigitChar] using h

theorem isDigitChar_ne_colon {c : Char} (h : isDigitChar c = true) : c ≠ ':' := by
  intro hc
  subst hc
  simp [isDigitChar, colon_toNat] at h

theorem char_eq_digitChar {c : Char} (h : isDigitChar c = true) :
    c = digitChar (c.toNat - 48) := by
  obtain ⟨h1, h2⟩ := isDigitChar_bounds h
  apply Char.eq_of_val_eq
  apply UInt32.ext
  show c.toNat = (digitChar (c.toNat - 48)).toNat
  rw [digitChar_toNat]
  omega

theorem digitsVal_append_singleton (l : List Char) (c : Char) :
    digitsVal (l ++ [c]) = 10 * digitsVal l + (c.toNat - 48) := by
  simp [digitsVal, List.foldl_append]

theorem ntdAux_small (fuel n : Nat) (h : n < 10) : ntdAux fuel n = [digitChar n] := by
  cases fuel with
  | zero => rfl
  | succ k => simp [ntdAux, h]

theorem ntdAux_spec (fuel : Nat) :
    ∀ n, n ≤ fuel →
      (∀ c ∈ ntdAux fuel n, isDigitChar c = true) ∧
      digitsVal (ntdAux fuel n) = n ∧ ntdAux fuel n ≠ [] := by
  induction fuel with
  | zero =>
    intro n hn
    have : n = 0 := by omega
    subst this
    refine ⟨?_, ?_, by simp [ntdAux]⟩
    · intro c hc
      simp [ntdAux] at hc
      subst hc
      exact isDigitChar_digitChar 0
    · simp [ntdAux, digitsVal, digitChar_toNat]
  | succ k ih =>
    intro n hn
    by_cases h10 : n < 10
    · rw [ntdAux_small _ _ h10]
      refine ⟨?_, ?_, by simp⟩
      · intro c hc
        simp at hc
        subst hc
        exact isDigitChar_digitChar n
      · simp [digitsVal, digitChar_toNat]
        omega
    · have hdiv : n / 10 ≤ k := by
        have := Nat.div_lt_self (by omega : 0 < n) (by omega : 1 < 10)
        omega
      obtain ⟨ihd, ihv, ihn⟩ := ih (n / 10) hdiv
      have hunf : ntdAux (k + 1) n = ntdAux k (n / 10) ++ [digitChar (n % 10)] := by
        simp [ntdAux, h10]
      rw [hunf]
      refine ⟨?_, ?_, by simp⟩
      · intro c hc
        rcases List.mem_append.mp hc with h | h
        · exact ihd c h
        · simp at h
          subst h
          exact isDigitChar_digitChar (n % 10)
      · rw [digitsVal_append_singleton, ihv, digitChar_toNat]
        omega

theorem natToDigits_spec (n : Nat) :
    (∀ c ∈ natToDigits n, isDigitChar c = true) ∧
    digitsVal (natToDigits n) = n ∧ natToDigits n ≠ [] :=
  ntdAux_spec n n le_rfl

theorem pad2_digits (n : Nat) : ∀ c ∈ pad2 n, isDigitChar c = true := by
  intro c hc
  simp only [pad2] at hc
  split at hc
  · rcases List.mem_cons.mp hc with h | h
    · subst h
      decide
    · exact (natToDigits_spec n).1 c h
  · exact (natToDigits_spec n).1 c hc

theorem pad2_ne_nil (n : Nat) : pad2 n ≠ [] := by
  simp only [pad2]
  split
  · simp
  · exact (natToDigits_spec n).2.2

theorem digitsVal_zero_cons (l : List Char) : digitsVal ('0' :: l) = digitsVal l := by
  simp [digitsVal]

theorem pad2_val (n : Nat) : digitsVal (pad2 n) = n := by
  simp only [pad2]
  split
  · rw [digitsVal_zero_cons]
    exact (natToDigits_spec n).2.1
  · exact (natToDigits_spec n).2.1

theorem jsNumber_pad2 (n : Nat) : jsNumber (pad2 n) = some n := by
  have hne := pad2_ne_nil n
  have hd := pad2_digits n
  simp [jsNumber, List.isEmpty_iff, hne, List.all_eq_true.mpr hd, pad2_val]

theorem splitOnColon_ne_nil (l : List Char) : splitOnColon l ≠ [] := by
  induction l with
  | nil => simp [splitOnColon]
  | cons c cs ih =>
    simp only [splitOnColon]
    split
    · simp
    · match h : splitOnColon cs with
      | [] => exact absurd h ih
      | g :: gs => simp

theorem splitOnColon_colonfree_head (l1 rest : List Char)
    (h : ∀ c ∈ l1, c ≠ ':') :
    splitOnColon (l1 ++ rest) =
      match splitOnColon rest with
      | [] => [l1]
      | g :: gs => (l1 ++ g) :: gs := by
  induction l1 with
  | nil =>
    simp only [List.nil_append]
    match h2 : splitOnColon rest with
    | [] => exact absurd h2 (splitOnColon_ne_nil rest)
    | g :: gs => simp
  | cons c cs ih =>
    have hc : c ≠ ':' := h c (List.mem_cons_self c cs)
    have ih2 := ih (fun x hx => h x (List.mem_cons_of_mem c hx))
    match h2 : splitOnColon rest with
    | [] => exact absurd h2 (splitOnColon_ne_nil rest)
    | g :: gs =>
      rw [h2] at ih2
      simp only [] at ih2
      simp only [List.cons_append, splitOnColon, if_neg hc, List.append_eq, ih2]

theorem splitOnColon_no_colon (l : List Char) (h : ∀ c ∈ l, c ≠ ':') :
    splitOnColon l = [l] := by
  have h2 := splitOnColon_colonfree_head l [] h
  simpa [splitOnColon] using h2

theorem splitOnColon_two_fields (l1 l2 : List Char)
    (h1 : ∀ c ∈ l1, c ≠ ':') (h2 : ∀ c ∈ l2, c ≠ ':') :
    splitOnColon (l1 ++ ':' :: l2) = [l1, l2] := by
  rw [splitOnColon_colonfree_head l1 (':' :: l2) h1]
  have hcol : splitOnColon (':' :: l2) = [] :: splitOnColon l2 := by
    simp [splitOnColon]
  rw [hcol, splitOnColon_no_colon l2 h2]
  simp

theorem timeToMinutes_minutesToTime (m : Nat) :
    timeToMinutes (minutesToTime m) = some m := by
  have hs : (minutesToTime m).data = pad2 (m / 60) ++ ':' :: pad2 (m % 60) := rfl
  have hnc1 : ∀ c ∈ pad2 (m / 60), c ≠ ':' :=
    fun c hc => isDigitChar_ne_colon (pad2_digits _ c hc)
  have hnc2 : ∀ c ∈ pad2 (m % 60), c ≠ ':' :=
    fun c hc => isDigitChar_ne_colon (pad2_digits _ c hc)
  rw [timeToMinutes, hs, splitOnColon_two_fields _ _ hnc1 hnc2]
  simp only [jsNumber_pad2]
  congr 1
  omega

theorem natToDigits_small {n : Nat} (h : n < 10) : natToDigits n = [digitChar n] :=
  ntdAux_small n n h

theorem natToDigits_two {n : Nat} (h1 : 10 ≤ n) (h2 : n < 100) :
    natToDigits n = [digitChar (n / 10), digitChar (n % 10)] := by
  obtain ⟨k, rfl⟩ : ∃ k, n = k + 1 := ⟨n - 1, by omega⟩
  show ntdAux (k + 1) (k + 1) = _
  rw [ntdAux]
  rw [if_neg (by omega)]
  rw [ntdAux_small _ _ (by omega)]
  simp

theorem pad2_small {n : Nat} (h : n < 10) : pad2 n = ['0', digitChar n] := by
  simp [pad2, natToDigits_small h]

theorem pad2_two {n : Nat} (h1 : 10 ≤ n) (h2 : n < 100) :
    pad2 n = [digitChar (n / 10), digitChar (n % 10)] := by
  simp [pad2, natToDigits_two h1 h2]

theorem digitChar_zero : digitChar 0 = '0' := by decide

theorem pad2_of_digits {c1 c2 : Char} (h1 : isDigitChar c1 = true)
    (h2 : isDigitChar c2 = true)
    (hlt : 10 * (c1.toNat - 48) + (c2.toNat - 48) < 100) :
    pad2 (10 * (c1.toNat - 48) + (c2.toNat - 48)) = [c1, c2] := by
  obtain ⟨hb1, hb1'⟩ := isDigitChar_bounds h1
  obtain ⟨hb2, hb2'⟩ := isDigitChar_bounds h2
  by_cases hd : c1.toNat - 48 = 0
  · have e1 : c1 = '0' := by
      have e := char_eq_digitChar h1
      rw [hd, digitChar_zero] at e
      exact e
    have e2 : c2 = digitChar (c2.toNat - 48) := char_eq_digitChar h2
    rw [hd]
    simp only [Nat.mul_zero, Nat.zero_add]
    rw [pad2_small (by omega), ← e2, e1]
  · rw [pad2_two (by omega) hlt]
    have ediv : (10 * (c1.toNat - 48) + (c2.toNat - 48)) / 10 = c1.toNat - 48 := by
      omega
    have emod : (10 * (c1.toNat - 48) + (c2.toNat - 48)) % 10 = c2.toNat - 48 := by
      omega
    rw [ediv, emod, ← char_eq_digitChar h1, ← char_eq_digitChar h2]

theorem minutesToTime_timeToMinutes (s : String) (h : isValidHHMM s = true) :
    ∃ m, timeToMinutes s = some m ∧ minutesToTime m = s := by
  obtain ⟨l⟩ := s
  match l with
  | [] => simp [isValidHHMM] at h
  | [c1] => simp [isValidHHMM] at h
  | [c1, c2] => simp [isValidHHMM] at h
  | [c1, c2, c3] => simp [isValidHHMM] at h
  | [c1, c2, c3, c4] => simp [isValidHHMM] at h
  | c1 :: c2 :: c3 :: c4 :: c5 :: c6 :: rest => simp [isValidHHMM] at h
  | [c1, c2, sep, c3, c4] =>
    simp only [isValidHHMM, Bool.and_eq_true, decide_eq_true_eq] at h
    obtain ⟨⟨⟨⟨⟨⟨hsep, hd1⟩, hd2⟩, hd3⟩, hd4⟩, hhour⟩, hmin⟩ := h
    subst hsep
    have hnc1 : ∀ c ∈ [c1, c2], c ≠ ':' := by
      intro c hc
      simp only [List.mem_cons, List.not_mem_nil, or_false] at hc
      rcases hc with rfl | rfl
      · exact isDigitChar_ne_colon hd1
      · exact isDigitChar_ne_colon hd2
    have hnc2 : ∀ c ∈ [c3, c4], c ≠ ':' := by
      intro c hc
      simp only [List.mem_cons, List.not_mem_nil, or_false] at hc
      rcases hc with rfl | rfl
      · exact isDigitChar_ne_colon hd3
      · exact isDigitChar_ne_colon hd4
    have hdata : (String.mk [c1, c2, ':', c3, c4]).data =
        [c1, c2] ++ ':' :: [c3, c4] := rfl
    have hsplit := splitOnColon_two_fields [c1, c2] [c3, c4] hnc1 hnc2
    have hjs1 : jsNumber [c1, c2] = some (10 * (c1.toNat - 48) + (c2.toNat - 48)) := by
      simp [jsNumber, hd1, hd2, digitsVal]
    have hjs2 : jsNumber [c3, c4] = some (10 * (c3.toNat - 48) + (c4.toNat - 48)) := by
      simp [jsNumber, hd3, hd4, digitsVal]
    refine ⟨(10 * (c1.toNat - 48) + (c2.toNat - 48)) * 60 +
      (10 * (c3.toNat - 48) + (c4.toNat - 48)), ?_, ?_⟩
    · rw [timeToMinutes, hdata, hsplit]
      simp only [hjs1, hjs2]
    · rw [minutesToTime]
      have ediv : ((10 * (c1.toNat - 48) + (c2.toNat - 48)) * 60 +
          (10 * (c3.toNat - 48) + (c4.toNat - 48))) / 60 =
          10 * (c1.toNat - 48) + (c2.toNat - 48) := by omega
      have emod : ((10 * (c1.toNat - 48) + (c2.toNat - 48)) * 60 +
          (10 * (c3.toNat - 48) + (c4.toNat - 48))) % 60 =
          10 * (c3.toNat - 48) + (c4.toNat - 48) := by omega
      rw [ediv, emod]
      rw [pad2_of_digits hd1 hd2 (by omega), pad2_of_digits hd3 hd4 (by omega)]
      simp

theorem daysInMonth_ge_28 (y : Int) (m : Nat) : 28 ≤ daysInMonth y m := by
  unfold daysInMonth
  split_ifs <;> omega

theorem daysInMonth_ge_1 (y : Int) (m : Nat) : 1 ≤ daysInMonth y m := by
  have := daysInMonth_ge_28 y m
  omega

theorem daysInMonth_dec (y : Int) : daysInMonth y 12 = 31 := by
  simp [daysInMonth]

theorem min_day_clamp (d X : Nat) (h : d ≤ 28) (h2 : 28 ≤ X) : min d X = d := by
  omega

theorem isValidDate_fields {a : CalDate} (hv : isValidDate a = true) :
    1 ≤ a.month ∧ a.month ≤ 12 ∧ 1 ≤ a.day ∧ a.day ≤ daysInMonth a.year a.month := by
  simp only [isValidDate, Bool.and_eq_true, decide_eq_true_eq] at hv
  exact ⟨hv.1.1.1, hv.1.1.2, hv.1.2, hv.2⟩

theorem prevDay_nextDay {a : CalDate} (hv : isValidDate a = true) :
    prevDay (nextDay a) = a := by
  obtain ⟨hm1, hm2, hd1, hd2⟩ := isValidDate_fields hv
  obtain ⟨y, m, d⟩ := a
  simp only at hm1 hm2 hd1 hd2
  simp only [nextDay]
  by_cases h1 : d < daysInMonth y m
  · rw [if_pos h1]
    simp only [prevDay]
    rw [if_pos (by omega : 1 < d + 1)]
    simp
  · rw [if_neg h1]
    by_cases h2 : m < 12
    · rw [if_pos h2]
      simp only [prevDay]
      rw [if_neg (by omega : ¬ (1:Nat) < 1), if_pos (by omega : 1 < m + 1)]
      have hmm : m + 1 - 1 = m := by omega
      rw [hmm]
      simp only [CalDate.mk.injEq]
      and_intros <;> first | trivial | omega
    · rw [if_neg h2]
      have h12 : m = 12 := by omega
      subst h12
      simp only [prevDay]
      rw [if_neg (by omega : ¬ (1:Nat) < 1), if_neg (by omega : ¬ (1:Nat) < 1)]
      have h31 : daysInMonth y 12 = 31 := daysInMonth_dec y
      simp only [CalDate.mk.injEq, Int.add_sub_cancel]
      and_intros <;> first | trivial | omega

theorem nextDay_prevDay {a : CalDate} (hv : isValidDate a = true) :
    nextDay (prevDay a) = a := by
  obtain ⟨hm1, hm2, hd1, hd2⟩ := isValidDate_fields hv
  obtain ⟨y, m, d⟩ := a
  simp only at hm1 hm2 hd1 hd2
  simp only [prevDay]
  by_cases h1 : 1 < d
  · rw [if_pos h1]
    simp only [nextDay]
    rw [if_pos (by omega : d - 1 < daysInMonth y m)]
    simp only [CalDate.mk.injEq]
    and_intros <;> first | trivial | omega
  · rw [if_neg h1]
    by_cases h2 : 1 < m
    · rw [if_pos h2]
      simp only [nextDay]
      rw [if_neg (by omega : ¬ daysInMonth y (m - 1) < daysInMonth y (m - 1))]
      rw [if_pos (by omega : m - 1 < 12)]
      simp only [CalDate.mk.injEq]
      and_intros <;> first | trivial | omega
    · rw [if_neg h2]
      have h31 : daysInMonth (y - 1) 12 = 31 := daysInMonth_dec (y - 1)
      simp only [nextDay]
      rw [if_neg (by omega : ¬ (31:Nat) < daysInMonth (y - 1) 12)]
      rw [if_neg (by omega : ¬ (12:Nat) < 12)]
      simp only [CalDate.mk.injEq, Int.sub_add_cancel]
      and_intros <;> first | trivial | omega

theorem nextDay_valid {a : CalDate} (hv : isValidDate a = true) :
    isValidDate (nextDay a) = true := by
  obtain ⟨hm1, hm2, hd1, hd2⟩ := isValidDate_fields hv
  obtain ⟨y, m, d⟩ := a
  simp only at hm1 hm2 hd1 hd2
  simp only [nextDay]
  by_cases h1 : d < daysInMonth y m
  · rw [if_pos h1]
    simp only [isValidDate, Bool.and_eq_true, decide_eq_true_eq]
    and_intros <;> omega
  · rw [if_neg h1]
    by_cases h2 : m < 12
    · rw [if_pos h2]
      have := daysInMonth_ge_1 y (m + 1)
      simp only [isValidDate, Bool.and_eq_true, decide_eq_true_eq]
      and_intros <;> omega
    · rw [if_neg h2]
      have := daysInMonth_ge_1 (y + 1) 1
      simp only [isValidDate, Bool.and_eq_true, decide_eq_true_eq]
      and_intros <;> omega

theorem prevDay_valid {a : CalDate} (hv : isValidDate a = true) :
    isValidDate (prevDay a) = true := by
  obtain ⟨hm1, hm2, hd1, hd2⟩ := isValidDate_fields hv
  obtain ⟨y, m, d⟩ := a
  simp only at hm1 hm2 hd1 hd2
  simp only [prevDay]
  by_cases h1 : 1 < d
  · rw [if_pos h1]
    simp only [isValidDate, Bool.and_eq_true, decide_eq_true_eq]
    and_intros <;> omega
  · rw [if_neg h1]
    by_cases h2 : 1 < m
    · rw [if_pos h2]
      have := daysInMonth_ge_1 y (m - 1)
      simp only [isValidDate, Bool.and_eq_true, decide_eq_true_eq]
      and_intros <;> omega
    · rw [if_neg h2]
      have h31 : daysInMonth (y - 1) 12 = 31 := daysInMonth_dec (y - 1)
      simp only [isValidDate, Bool.and_eq_true, decide_eq_true_eq]
      and_intros <;> omega

theorem addDays_valid {a : CalDate} (hv : isValidDate a = true) (n : Nat) :
    isValidDate (addDays a n) = true := by
  induction n with
  | zero => exact hv
  | succ k ih =>
    rw [addDays, Function.iterate_succ_apply']
    exact nextDay_valid ih

theorem subDays_valid {a : CalDate} (hv : isValidDate a = true) (n : Nat) :
    isValidDate (subDays a n) = true := by
  induction n with
  | zero => exact hv
  | succ k ih =>
    rw [subDays, Function.iterate_succ_apply']
    exact prevDay_valid ih

theorem subDays_addDays {a : CalDate} (hv : isValidDate a = true) (n : Nat) :
    subDays (addDays a n) n = a := by
  induction n with
  | zero => rfl
  | succ k ih =>
    show prevDay^[k + 1] (nextDay^[k + 1] a) = a
    rw [Function.iterate_succ_apply' nextDay, Function.iterate_succ_apply prevDay]
    have hc : prevDay (nextDay (nextDay^[k] a)) = nextDay^[k] a :=
      prevDay_nextDay (addDays_valid hv k)
    rw [hc]
    exact ih

theorem addDays_subDays {a : CalDate} (hv : isValidDate a = true) (n : Nat) :
    addDays (subDays a n) n = a := by
  induction n with
  | zero => rfl
  | succ k ih =>
    show nextDay^[k + 1] (prevDay^[k + 1] a) = a
    rw [Function.iterate_succ_apply' prevDay, Function.iterate_succ_apply nextDay]
    have hc : nextDay (prevDay (prevDay^[k] a)) = prevDay^[k] a :=
      nextDay_prevDay (subDays_valid hv k)
    rw [hc]
    exact ih

theorem addMonths_cancel {a : CalDate} (hv : isValidDate a = true)
    (hd : a.day ≤ 28) (n : Int) :
    addMonths (addMonths a n) (-n) = a := by
  obtain ⟨hm1, hm2, hd1, hd2⟩ := isValidDate_fields hv
  obtain ⟨y, m, d⟩ := a
  simp only at hm1 hm2 hd1 hd2 hd
  simp only [addMonths, CalDate.mk.injEq]
  and_intros
  · omega
  · omega
  · rw [min_day_clamp _ _ hd (daysInMonth_ge_28 _ _)]
    exact min_day_clamp _ _ hd (daysInMonth_ge_28 _ _)

theorem jsNumber_natToDigits (n : Nat) : jsNumber (natToDigits n) = some n := by
  obtain ⟨hd, hv, hne⟩ := natToDigits_spec n
  simp [jsNumber, List.isEmpty_iff, hne, List.all_eq_true.mpr hd, hv]

theorem natToDigits_no_colon (n : Nat) : ∀ c ∈ natToDigits n, c ≠ ':' :=
  fun c hc => isDigitChar_ne_colon ((natToDigits_spec n).1 c hc)

theorem timesOverlap_symm (s1 e1 s2 e2 : String) :
    timesOverlap s1 e1 s2 e2 = timesOverlap s2 e2 s1 e1 := by
  have h : ∀ a b, jsGe a b = jsLe b a := by
    intro a b
    cases a <;> cases b <;> rfl
  rw [timesOverlap, timesOverlap, h, h, Bool.or_comm]

theorem granViolation_some (e s step : Nat) (h : s ≤ e) :
    granViolation (some e) (some s) step = decide ((e - s) % step ≠ 0) := by
  have hcast : ((e : Int) - (s : Int)) = ((e - s : Nat) : Int) := by omega
  simp only [granViolation, hcast]
  have htm : Int.tmod ((e - s : Nat) : Int) ((step : Nat) : Int) =
      (((e - s) % step : Nat) : Int) := rfl
  rw [htm]
  simp only [decide_eq_decide, ne_eq, Int.natCast_eq_zero]

theorem validateEvent_ok_bounds {title sStr eStr : String} {d : EventDraft}
    (h : validateEvent title sStr eStr dayWindow = .ok d) :
    ∃ s e : Nat, timeToMinutes sStr = some s ∧ timeToMinutes eStr = some e ∧
      DAY_START ≤ s ∧ s < e ∧ e ≤ DAY_END ∧ (e - s) % TIME_STEP = 0 ∧
      d = ⟨jsTrim title, sStr, eStr⟩ := by
  rw [validateEvent] at h
  split_ifs at h with h1 h2 h3 h4
  cases hs : timeToMinutes sStr with
  | none =>
    rw [hs] at h4
    exact absurd (by cases timeToMinutes eStr <;> rfl : granViolation (timeToMinutes eStr) none dayWindow.step = true) h4
  | some s =>
    cases he : timeToMinutes eStr with
    | none =>
      rw [hs, he] at h4
      exact absurd (rfl : granViolation none (some s) dayWindow.step = true) h4
    | some e =>
      rw [hs, he] at h2 h3 h4
      simp only [jsLe, decide_eq_true_eq] at h2
      simp only [jsLt, jsGt, Bool.or_eq_true, decide_eq_true_eq] at h3
      push_neg at h3
      have hse : s < e := by omega
      rw [granViolation_some e s _ (by omega)] at h4
      simp only [decide_eq_true_eq, Decidable.not_not] at h4
      refine ⟨s, e, rfl, rfl, ?_, hse, ?_, h4, ?_⟩
      · have h3a := h3.1
        simp only [dayWindow] at h3a
        omega
      · have h3b := h3.2
        simp only [dayWindow] at h3b
        omega
      · simpa using h.symm

theorem timeSlots_length : timeSlots.length = 48 := by
  simp [timeSlots, DAY_END, DAY_START, TIME_STEP]

/-- Claim C1: the overlap predicate on half-open intervals `[aStart, aEnd)` and
`[bStart, bEnd)` returns true iff `aStart < bEnd ∧ bStart < aEnd`; touching
endpoints (`aEnd = bStart`) never overlap; identical nonempty intervals do
overlap; and the three boundary examples of the spec hold. -/
theorem overlap_halfopen_iff :
    (∀ aS aE bS bE : Nat,
      timesOverlap (minutesToTime aS) (minutesToTime aE)
        (minutesToTime bS) (minutesToTime bE) = true ↔ aS < bE ∧ bS < aE) ∧
    (∀ aS aE bE : Nat,
      timesOverlap (minutesToTime aS) (minutesToTime aE)
        (minutesToTime aE) (minutesToTime bE) = false) ∧
    (∀ aS aE : Nat, aS < aE →
      timesOverlap (minutesToTime aS) (minutesToTime aE)
        (minutesToTime aS) (minutesToTime aE) = true) ∧
    timesOverlap "08:00" "09:00" "09:00" "10:00" = false ∧
    timesOverlap "08:00" "09:00" "08:30" "09:30" = true ∧
    timesOverlap "08:00" "09:00" "08:00" "09:00" = true := by
  have key : ∀ aS aE bS bE : Nat,
      timesOverlap (minutesToTime aS) (minutesToTime aE)
        (minutesToTime bS) (minutesToTime bE) = true ↔ aS < bE ∧ bS < aE := by
    intro aS aE bS bE
    rw [timesOverlap, timeToMinutes_minutesToTime, timeToMinutes_minutesToTime,
      timeToMinutes_minutesToTime, timeToMinutes_minutesToTime]
    simp only [jsLe, jsGe, Bool.not_eq_true', Bool.or_eq_false_iff,
      decide_eq_false_iff_not, not_le]
    omega
  refine ⟨key, ?_, ?_, by decide, by decide, by decide⟩
  · intro aS aE bE
    cases htv : timesOverlap (minutesToTime aS) (minutesToTime aE)
        (minutesToTime aE) (minutesToTime bE) with
    | false => rfl
    | true => exact absurd ((key aS aE aE bE).mp htv).2 (lt_irrefl aE)
  · intro aS aE h
    exact (key aS aE aS aE).mpr ⟨h, h⟩

/-- Witness for C1: two identical one-hour intervals (08:00-09:00 in minutes)
overlap. -/
theorem overlap_halfopen_iff_witness :
    timesOverlap (minutesToTime 480) (minutesToTime 540)
      (minutesToTime 480) (minutesToTime 540) = true :=
  overlap_halfopen_iff.2.2.1 480 540 (by omega)

/-- Claim C8: minute values in `[0, 1440)` survive a format-then-parse round
trip, and well-formed zero-padded `HH:mm` strings survive a parse-then-format
round trip. -/
theorem time_conversion_roundtrip :
    (∀ m : Nat, m < 1440 → timeToMinutes (minutesToTime m) = some m) ∧
    (∀ s : String, isValidHHMM s = true →
      ∃ m, timeToMinutes s = some m ∧ minutesToTime m = s) :=
  ⟨fun m _ => timeToMinutes_minutesToTime m, minutesToTime_timeToMinutes⟩

/-- Witness for C8: the round trips at `754` (12:34) and at `"12:34"`. -/
theorem time_conversion_roundtrip_witness :
    timeToMinutes (minutesToTime 754) = some 754 ∧
    ∃ m, timeToMinutes "12:34" = some m ∧ minutesToTime m = "12:34" :=
  ⟨time_conversion_roundtrip.1 754 (by omega),
   time_conversion_roundtrip.2 "12:34" (by decide)⟩

/-- Counterexample to claim C9: `"25:00"` is outside the `HH:mm` range (hours
must be 0-23), yet the parser returns the minute value `1500` instead of
failing — there is no `FormatError` path in the code. -/
theorem timeToMinutes_no_format_error :
    isValidHHMM "25:00" = false ∧ timeToMinutes "25:00" = some 1500 :=
  ⟨by decide, rfl⟩

/-- Claim C9 as amended: the parser validates nothing.  Any string whose two
colon-separated fields are decimal digit strings — including out-of-range
hours or minutes — is converted to `hours * 60 + minutes`; an input without a
parseable second field merely yields `NaN` (`none`), never a structured
error. -/
theorem timeToMinutes_unvalidated :
    (∀ h m : Nat,
      timeToMinutes ⟨natToDigits h ++ ':' :: natToDigits m⟩ = some (h * 60 + m)) ∧
    timeToMinutes "abc" = none := by
  refine ⟨?_, rfl⟩
  intro h m
  have hdata : (String.mk (natToDigits h ++ ':' :: natToDigits m)).data =
      natToDigits h ++ ':' :: natToDigits m := rfl
  rw [timeToMinutes, hdata,
    splitOnColon_two_fields _ _ (natToDigits_no_colon h) (natToDigits_no_colon m)]
  simp only [jsNumber_natToDigits]

/-- Claim C2: the validator runs exactly the four checks in order, short
circuiting on the first failure — empty trimmed title, end not strictly after
start, outside the 08:00-20:00 window, duration not a multiple of 15 — and on
success accepts with the trimmed title; the five acceptance examples of the
spec hold. -/
theorem validator_four_checks :
    (∀ (title sStr eStr : String) (s e : Nat),
      timeToMinutes sStr = some s → timeToMinutes eStr = some e →
      validateEvent title sStr eStr dayWindow =
        (if jsTrim title = "" then .error .EmptyTitle
         else if e ≤ s then .error .EndBeforeStart
         else if s < DAY_START ∨ DAY_END < e then .error .OutsideWindow
         else if (e - s) % TIME_STEP ≠ 0 then .error .BadGranularity
         else .ok ⟨jsTrim title, sStr, eStr⟩)) ∧
    validateEvent "Standup" "08:00" "08:15" dayWindow =
      .ok ⟨"Standup", "08:00", "08:15"⟩ ∧
    validateEvent "" "08:00" "08:15" dayWindow = .error .EmptyTitle ∧
    validateEvent "X" "09:00" "08:00" dayWindow = .error .EndBeforeStart ∧
    validateEvent "X" "07:45" "08:00" dayWindow = .error .OutsideWindow ∧
    validateEvent "X" "08:00" "08:10" dayWindow = .error .BadGranularity := by
  refine ⟨?_, rfl, rfl, rfl, rfl, rfl⟩
  intro title sStr eStr s e hs he
  rw [validateEvent, hs, he]
  by_cases h1 : jsTrim title = ""
  · rw [if_pos h1, if_pos h1]
  · rw [if_neg h1, if_neg h1]
    by_cases h2 : e ≤ s
    · rw [if_pos (by simp [jsLe, h2] : jsLe (some e) (some s) = true), if_pos h2]
    · rw [if_neg (by simp [jsLe, h2] : ¬ jsLe (some e) (some s) = true), if_neg h2]
      by_cases h3 : s < DAY_START ∨ DAY_END < e
      · rw [if_pos ?_, if_pos h3]
        simp only [jsLt, jsGt, dayWindow, Bool.or_eq_true, decide_eq_true_eq]
        exact h3
      · rw [if_neg ?_, if_neg h3]
        · rw [granViolation_some e s _ (by omega)]
          by_cases h4 : (e - s) % TIME_STEP ≠ 0
          · rw [if_pos (by simpa [dayWindow] using h4), if_pos h4]
          · rw [if_neg (by simpa [dayWindow] using h4), if_neg h4]
        · simp only [jsLt, jsGt, dayWindow, Bool.or_eq_true, decide_eq_true_eq]
          exact h3

/-- Witness for C2: the characterization instantiated on the accepted
"Standup" submission. -/
theorem validator_four_checks_witness :
    validateEvent "Standup" "08:00" "08:15" dayWindow =
      .ok ⟨"Standup", "08:00", "08:15"⟩ :=
  (validator_four_checks.1 "Standup" "08:00" "08:15" 480 495 rfl rfl).trans (by rfl)

/-- Claim C4: an overlap with existing events never causes rejection — every
submission the four checks accept is appended to the collection (with `none`
as the reported rejection), even when `hasOverlap` is true for its date and
time range; the overlap bit is only advisory. -/
theorem overlap_never_blocks :
    ∀ (events : List AgendaEvent) (title sStr eStr : String) (cat : Category)
      (dep : Department) (date : CalDate) (newId : Nat) (d : EventDraft),
      validateEvent title sStr eStr dayWindow = .ok d →
      (onAddEvent events title sStr eStr cat dep date newId).1 =
        events ++ [⟨newId, d.title, d.startTime, d.endTime, cat, dep, date⟩] ∧
      (onAddEvent events title sStr eStr cat dep date newId).2 = none ∧
      (hasOverlap events date sStr eStr = true →
        (onAddEvent events title sStr eStr cat dep date newId).1 =
          events ++ [⟨newId, d.title, d.startTime, d.endTime, cat, dep, date⟩]) := by
  intro events title sStr eStr cat dep date newId d hok
  refine ⟨?_, ?_, fun _ => ?_⟩ <;> simp [onAddEvent, hok]

/-- Witness for C4: adding the overlapping "Review" (08:30-09:30) on a date
already holding "Demo" (08:00-09:00) raises the overlap warning yet still
appends the event. -/
theorem overlap_never_blocks_witness :
    hasOverlap [⟨1, "Demo", "08:00", "09:00", .Work, .Engineering, ⟨2024, 6, 10⟩⟩]
      ⟨2024, 6, 10⟩ "08:30" "09:30" = true ∧
    (onAddEvent [⟨1, "Demo", "08:00", "09:00", .Work, .Engineering, ⟨2024, 6, 10⟩⟩]
      "Review" "08:30" "09:30" .Personal .Engineering ⟨2024, 6, 10⟩ 2).1 =
      [⟨1, "Demo", "08:00", "09:00", .Work, .Engineering, ⟨2024, 6, 10⟩⟩] ++
      [⟨2, "Review", "08:30", "09:30", .Personal, .Engineering, ⟨2024, 6, 10⟩⟩] :=
  ⟨by decide,
   (overlap_never_blocks
     [⟨1, "Demo", "08:00", "09:00", .Work, .Engineering, ⟨2024, 6, 10⟩⟩]
     "Review" "08:30" "09:30" .Personal .Engineering ⟨2024, 6, 10⟩ 2
     ⟨"Review", "08:30", "09:30"⟩ rfl).1⟩

/-- Claim C5: every event that enters through the validator's acceptance path
has geometry inside the grid — top offset nonnegative, height positive, and
top plus height at most the full grid height `timeSlots.length *
EVENT_SLOT_HEIGHT` (equivalently, fractions of the day window lie in
`[0, 1]`). -/
theorem layout_geometry_invariant :
    ∀ (title sStr eStr : String) (d : EventDraft) (id : Nat) (cat : Category)
      (dep : Department) (dt : CalDate),
      validateEvent title sStr eStr dayWindow = .ok d →
      ∃ t h : ℚ,
        topOffset ⟨id, d.title, sStr, eStr, cat, dep, dt⟩ = some t ∧
        heightPx ⟨id, d.title, sStr, eStr, cat, dep, dt⟩ = some h ∧
        0 ≤ t ∧ 0 < h ∧ t + h ≤ (timeSlots.length : ℚ) * EVENT_SLOT_HEIGHT := by
  intro title sStr eStr d id cat dep dt hok
  obtain ⟨s, e, hs, he, hlo, hse, hhi, -, -⟩ := validateEvent_ok_bounds hok
  have hscast : (480 : ℚ) ≤ (s : ℚ) := by
    have : (480 : Nat) ≤ s := hlo
    exact_mod_cast this
  have hecast : (e : ℚ) ≤ 1200 := by
    have : e ≤ (1200 : Nat) := hhi
    exact_mod_cast this
  have hsecast : (s : ℚ) < (e : ℚ) := by exact_mod_cast hse
  refine ⟨((s : ℚ) - (DAY_START : ℚ)) / (TIME_STEP : ℚ) * EVENT_SLOT_HEIGHT,
    ((e : ℚ) - (s : ℚ)) / (TIME_STEP : ℚ) * EVENT_SLOT_HEIGHT, ?_, ?_, ?_, ?_, ?_⟩
  · simp [topOffset, hs]
  · simp [heightPx, hs, he]
  · have : (DAY_START : ℚ) = 480 := by norm_num [DAY_START]
    rw [this]
    have h15 : (TIME_STEP : ℚ) = 15 := by norm_num [TIME_STEP]
    rw [h15]
    have hE : EVENT_SLOT_HEIGHT = 48 := rfl
    rw [hE]
    nlinarith [hscast]
  · have h15 : (TIME_STEP : ℚ) = 15 := by norm_num [TIME_STEP]
    have hE : EVENT_SLOT_HEIGHT = 48 := rfl
    rw [h15, hE]
    nlinarith [hsecast]
  · rw [timeSlots_length]
    have h15 : (TIME_STEP : ℚ) = 15 := by norm_num [TIME_STEP]
    have hDS : (DAY_START : ℚ) = 480 := by norm_num [DAY_START]
    have hE : EVENT_SLOT_HEIGHT = 48 := rfl
    rw [h15, hDS, hE]
    nlinarith [hecast, hscast]

/-- Witness for C5: the accepted "Standup" event (08:00-08:15) has in-grid
geometry. -/
theorem layout_geometry_invariant_witness :
    ∃ t h : ℚ,
      topOffset ⟨7, "Standup", "08:00", "08:15", .Work, .Engineering, ⟨2024, 6, 10⟩⟩ = some t ∧
      heightPx ⟨7, "Standup", "08:00", "08:15", .Work, .Engineering, ⟨2024, 6, 10⟩⟩ = some h ∧
      0 ≤ t ∧ 0 < h ∧ t + h ≤ (timeSlots.length : ℚ) * EVENT_SLOT_HEIGHT :=
  layout_geometry_invariant "Standup" "08:00" "08:15" ⟨"Standup", "08:00", "08:15"⟩
    7 .Work .Engineering ⟨2024, 6, 10⟩ rfl

/-- Claim C3: in a computed day bucket, any two distinct events (different
ids) whose intervals overlap are both flagged, and an event overlapping no
other event of its bucket is not flagged — the flag is exactly "some other
event of my day bucket overlaps me". -/
theorem conflict_flags_correct :
    (∀ (events : List AgendaEvent) (filt : Option Department)
        (days : List CalDate) (d : CalDate) (p q : AgendaEvent),
      p ∈ eventsByDay events filt days d → q ∈ eventsByDay events filt days d →
      p.id ≠ q.id →
      timesOverlap p.startTime p.endTime q.startTime q.endTime = true →
      hasConflictFlag (eventsByDay events filt days d) p = true ∧
      hasConflictFlag (eventsByDay events filt days d) q = true) ∧
    (∀ (events : List AgendaEvent) (filt : Option Department)
        (days : List CalDate) (d : CalDate) (p : AgendaEvent),
      (∀ q ∈ eventsByDay events filt days d, q.id ≠ p.id →
        timesOverlap p.startTime p.endTime q.startTime q.endTime = false) →
      hasConflictFlag (eventsByDay events filt days d) p = false) := by
  constructor
  · intro events filt days d p q hp hq hid hov
    constructor
    · refine List.any_eq_true.mpr ⟨q, hq, ?_⟩
      simp [Ne.symm hid, hov]
    · refine List.any_eq_true.mpr ⟨p, hp, ?_⟩
      rw [timesOverlap_symm] at hov
      simp [hid, hov]
  · intro events filt days d p hnone
    refine List.any_eq_false.mpr ?_
    intro q hq
    by_cases hid : q.id = p.id
    · simp [hid]
    · simp [hid, hnone q hq hid]

/-- Witness for C3: the end-to-end scenario of the spec — "Demo" 08:00-09:00
and "Review" 08:30-09:30 on 2024-06-10 — is flagged on both sides in the week
of 2024-06-10 with the filter on "all". -/
theorem conflict_flags_correct_witness :
    hasConflictFlag (eventsByDay
      [⟨1, "Demo", "08:00", "09:00", .Work, .Engineering, ⟨2024, 6, 10⟩⟩,
       ⟨2, "Review", "08:30", "09:30", .Personal, .Engineering, ⟨2024, 6, 10⟩⟩]
      none (daysOfWeek (startOfWeek ⟨2024, 6, 10⟩)) ⟨2024, 6, 10⟩)
      ⟨1, "Demo", "08:00", "09:00", .Work, .Engineering, ⟨2024, 6, 10⟩⟩ = true ∧
    hasConflictFlag (eventsByDay
      [⟨1, "Demo", "08:00", "09:00", .Work, .Engineering, ⟨2024, 6, 10⟩⟩,
       ⟨2, "Review", "08:30", "09:30", .Personal, .Engineering, ⟨2024, 6, 10⟩⟩]
      none (daysOfWeek (startOfWeek ⟨2024, 6, 10⟩)) ⟨2024, 6, 10⟩)
      ⟨2, "Review", "08:30", "09:30", .Personal, .Engineering, ⟨2024, 6, 10⟩⟩ = true :=
  conflict_flags_correct.1
    [⟨1, "Demo", "08:00", "09:00", .Work, .Engineering, ⟨2024, 6, 10⟩⟩,
     ⟨2, "Review", "08:30", "09:30", .Personal, .Engineering, ⟨2024, 6, 10⟩⟩]
    none (daysOfWeek (startOfWeek ⟨2024, 6, 10⟩)) ⟨2024, 6, 10⟩
    ⟨1, "Demo", "08:00", "09:00", .Work, .Engineering, ⟨2024, 6, 10⟩⟩
    ⟨2, "Review", "08:30", "09:30", .Personal, .Engineering, ⟨2024, 6, 10⟩⟩
    (by decide) (by decide) (by decide) (by decide)

/-- Claim C10: the day buckets partition the filtered events — an event lies
in the bucket for day `d` exactly when it is in the collection, passes the
department filter, its date is one of the visible days, and `d` is its own
date; in particular a day with no matching events has an empty bucket. -/
theorem buckets_partition :
    ∀ (events : List AgendaEvent) (filt : Option Department)
      (days : List CalDate) (d : CalDate) (e : AgendaEvent),
      e ∈ eventsByDay events filt days d ↔
        e ∈ events ∧ matchesFilter filt e = true ∧ e.date ∈ days ∧ e.date = d := by
  intro events filt days d e
  simp only [eventsByDay, filteredEvents, List.mem_filter, Bool.and_eq_true,
    decide_eq_true_eq, List.any_eq_true]
  constructor
  · rintro ⟨⟨he, hf, x, hx, hxd⟩, hd⟩
    exact ⟨he, hf, hxd ▸ hx, hd⟩
  · rintro ⟨he, hf, hdate, rfl⟩
    exact ⟨⟨he, hf, e.date, hdate, rfl⟩, rfl⟩

/-- Counterexample to claim C6: starting a session on Wednesday 2024-06-12
rounds the anchor to Sunday 2024-06-09, but one month-forward navigation
yields anchor 2024-07-09, a Tuesday (weekday 2); the rendered range starts at
that anchor itself, not at its week's Sunday 2024-07-07 — the code never
re-rounds the anchor after month or year navigation. -/
theorem visible_range_not_rounded :
    startOfWeek ⟨2024, 6, 12⟩ = ⟨2024, 6, 9⟩ ∧
    dayOfWeek ⟨2024, 6, 9⟩ = 0 ∧
    navMonthForward ⟨2024, 6, 9⟩ = ⟨2024, 7, 9⟩ ∧
    dayOfWeek ⟨2024, 7, 9⟩ = 2 ∧
    (daysOfWeek ⟨2024, 7, 9⟩).get? 0 = some ⟨2024, 7, 9⟩ ∧
    startOfWeek ⟨2024, 7, 9⟩ = ⟨2024, 7, 7⟩ ∧
    (⟨2024, 7, 9⟩ : CalDate) ≠ startOfWeek ⟨2024, 7, 9⟩ := by
  decide

/-- Claim C6 as amended: for every anchor the visible range is exactly seven
consecutive dates whose first element is the anchor itself (each later entry
is the calendar successor of the previous one); no rounding to the week start
is applied, so the range starts on Sunday only when the anchor is already a
Sunday. -/
theorem visible_range_seven_consecutive :
    ∀ a : CalDate,
      (daysOfWeek a).length = 7 ∧
      (daysOfWeek a).get? 0 = some a ∧
      (∀ i : Nat, i < 6 →
        (daysOfWeek a).get? (i + 1) = ((daysOfWeek a).get? i).map nextDay) := by
  intro a
  refine ⟨by simp [daysOfWeek], ?_, ?_⟩
  · simp [daysOfWeek, List.get?_map, List.get?_range, addDays]
  · intro i hi
    rw [daysOfWeek]
    rw [List.get?_map, List.get?_map]
    rw [List.get?_range (by omega : i + 1 < 7), List.get?_range (by omega : i < 7)]
    simp only [Option.map_some']
    rw [addDays, addDays, Function.iterate_succ_apply' nextDay]

/-- Witness for C6 amended: in the week rendered for anchor 2024-07-09 the
second day is the calendar successor of the first. -/
theorem visible_range_seven_consecutive_witness :
    (daysOfWeek ⟨2024, 7, 9⟩).get? 1 =
      ((daysOfWeek ⟨2024, 7, 9⟩).get? 0).map nextDay :=
  (visible_range_seven_consecutive ⟨2024, 7, 9⟩).2.2 0 (by omega)

/-- Counterexample to claim C7: month navigation does not round trip from
2024-01-31 — one month forward clamps to 2024-02-29 and one month back then
gives 2024-01-29, not the original anchor. -/
theorem nav_month_roundtrip_fails :
    navMonthForward ⟨2024, 1, 31⟩ = ⟨2024, 2, 29⟩ ∧
    navMonthBackward (navMonthForward ⟨2024, 1, 31⟩) = ⟨2024, 1, 29⟩ ∧
    navMonthBackward (navMonthForward ⟨2024, 1, 31⟩) ≠ ⟨2024, 1, 31⟩ := by
  decide

/-- Claim C7 as amended: week navigation round trips in both orders for every
valid anchor; month and year navigation round trip in both orders for every
valid anchor whose day of month is at most 28 — the end-of-month clamping
(e.g. Jan 31 → Feb 29 → Jan 29) is the only failure mode. -/
theorem nav_inverse_roundtrips :
    ∀ a : CalDate, isValidDate a = true →
      (navWeekBackward (navWeekForward a) = a ∧
       navWeekForward (navWeekBackward a) = a) ∧
      (a.day ≤ 28 →
        navMonthBackward (navMonthForward a) = a ∧
        navMonthForward (navMonthBackward a) = a ∧
        navYearBackward (navYearForward a) = a ∧
        navYearForward (navYearBackward a) = a) := by
  intro a hv
  constructor
  · exact ⟨subDays_addDays hv 7, addDays_subDays hv 7⟩
  · intro hd
    refine ⟨?_, ?_, ?_, ?_⟩
    · exact addMonths_cancel hv hd 1
    · have h := addMonths_cancel hv hd (-1)
      simpa [navMonthForward, navMonthBackward, subMonths] using h
    · have h := addMonths_cancel hv hd 12
      simpa [navYearForward, navYearBackward, addYears, subYears] using h
    · have h := addMonths_cancel hv hd (-12)
      simpa [navYearForward, navYearBackward, addYears, subYears] using h

/-- Witness for C7 amended: the week and month round trips at the valid
anchor 2024-06-09 (day 9 ≤ 28). -/
theorem nav_inverse_roundtrips_witness :
    navWeekBackward (navWeekForward ⟨2024, 6, 9⟩) = ⟨2024, 6, 9⟩ ∧
    navMonthBackward (navMonthForward ⟨2024, 6, 9⟩) = ⟨2024, 6, 9⟩ :=
  ⟨(nav_inverse_roundtrips ⟨2024, 6, 9⟩ (by decide)).1.1,
   ((nav_inverse_roundtrips ⟨2024, 6, 9⟩ (by decide)).2 (by decide)).1⟩
